import Mathlib

/-!
Verification of the document-generation core of `github-process-manager`
(`word_generator.py`): the analysis-section parser, the report-filename
generator, the report listing and the age-based cleanup.

The Python code is shallowly embedded: strings become `String`/`List Char`,
the five concrete regular expressions of `parse_analysis_sections` become
explicit scanning functions with the exact semantics they have under
`re.search(..., re.DOTALL | re.IGNORECASE)` (leftmost match, greedy
whitespace/separator runs, lazy capture stopped at the first position where
the lookahead alternative or `$` matches; `$` without `re.MULTILINE` matches
at the end of the text and just before one trailing newline), and the
file-system operations of the report store become explicit state passing
over a directory model.  Timestamps are modelled in integer milliseconds
since the epoch (Python uses float seconds; millisecond granularity keeps
the sub-second behaviour that the code's second-resolution date formatting
makes observable).  Case folding and character classes are modelled at
ASCII granularity, which covers every character the patterns mention.
-/

/-- Python `\s` (ASCII range), as used by `re` and by `str.strip()`. -/
def pyIsSpace (c : Char) : Bool :=
  c = ' ' || c = '\t' || c = '\n' || c = '\r' || c = '\x0b' || c = '\x0c'

/-- The character class `[:\s]` that follows each section label. -/
def isSepChar (c : Char) : Bool :=
  c = ':' || pyIsSpace c

/-- Case-insensitive literal match (the literal is stored lowercase):
returns the rest of the input after the literal, or `none`. -/
def matchCI : List Char → List Char → Option (List Char)
  | [], cs => some cs
  | _ :: _, [] => none
  | l :: ls, c :: cs => if c.toLower = l then matchCI ls cs else none

/-- Regex alternation over literal labels, tried in pattern order. -/
def matchAlts : List (List Char) → List Char → Option (List Char)
  | [], _ => none
  | l :: ls, cs =>
    match matchCI l cs with
    | some r => some r
    | none => matchAlts ls cs

/-- Match `N\.\s*(label₁|label₂|…)` at the head of the input; returns the
rest after the label.  `\s*` is greedy and every label starts with a
letter, so the whole whitespace run is consumed. -/
def matchMarkerHead (num : Char) (labels : List (List Char)) : List Char → Option (List Char)
  | c1 :: c2 :: rest =>
    if c1 = num && c2 = '.' then matchAlts labels (rest.dropWhile pyIsSpace) else none
  | _ => none

/-- Python `$` in non-MULTILINE mode: end of text, or just before one
trailing newline. -/
def dollarLook : List Char → Bool
  | [] => true
  | c :: rest => c = '\n' && rest.isEmpty

/-- Lookahead `(?=N\.\s*kw)` used to delimit a lazy capture. -/
def lookMarker (num : Char) (kw : List Char) (cs : List Char) : Bool :=
  (matchMarkerHead num [kw] cs).isSome

/-- Lazy capture `(.*?)(?=look)`: the shortest prefix up to the first
position where the lookahead holds (the lookahead always holds at the end
of the text, because each pattern's lookahead includes `$`). -/
def findCaptureEnd (look : List Char → Bool) : List Char → List Char
  | [] => []
  | c :: rest => if look (c :: rest) then [] else c :: findCaptureEnd look rest

/-- `re.search` for a pattern `N\.\s*label[:\s]*(.*?)(?=look)`: scan for the
leftmost position where the marker head matches, consume the greedy `[:\s]*`
run, and return the lazily captured group. -/
def reSearch (num : Char) (labels : List (List Char)) (look : List Char → Bool) :
    List Char → Option (List Char)
  | [] => none
  | c :: rest =>
    match matchMarkerHead num labels (c :: rest) with
    | some afterLabel => some (findCaptureEnd look (afterLabel.dropWhile isSepChar))
    | none => reSearch num labels look rest

/-- Python `str.strip()` (ASCII whitespace). -/
def pyStrip (cs : List Char) : List Char :=
  ((cs.dropWhile pyIsSpace).reverse.dropWhile pyIsSpace).reverse

/-- `1\.\s*Control Objective[:\s]*(.*?)(?=2\.\s*Risks|$)` -/
def capture1 (cs : List Char) : Option (List Char) :=
  reSearch '1' ["control objective".data]
    (fun t => lookMarker '2' "risks".data t || dollarLook t) cs

/-- `2\.\s*Risks Addressed[:\s]*(.*?)(?=3\.\s*Testing|$)` -/
def capture2 (cs : List Char) : Option (List Char) :=
  reSearch '2' ["risks addressed".data]
    (fun t => lookMarker '3' "testing".data t || dollarLook t) cs

/-- `3\.\s*Testing Procedures[:\s]*(.*?)(?=4\.\s*Test Results|4\.\s*Results|$)` -/
def capture3 (cs : List Char) : Option (List Char) :=
  reSearch '3' ["testing procedures".data]
    (fun t => lookMarker '4' "test results".data t || lookMarker '4' "results".data t ||
      dollarLook t) cs

/-- `4\.\s*(?:Test Results and Findings|Results)[:\s]*(.*?)(?=5\.\s*Conclusion|$)` -/
def capture4 (cs : List Char) : Option (List Char) :=
  reSearch '4' ["test results and findings".data, "results".data]
    (fun t => lookMarker '5' "conclusion".data t || dollarLook t) cs

/-- `5\.\s*(?:Conclusion and Recommendation|Conclusion)[:\s]*(.*?)$` -/
def capture5 (cs : List Char) : Option (List Char) :=
  reSearch '5' ["conclusion and recommendation".data, "conclusion".data]
    (fun t => dollarLook t) cs

/-- `match.group(1).strip()` when the pattern matched, `''` otherwise (the
dictionary entry keeps its initial `''` when `re.search` returns `None`). -/
def extractSection (cap : Option (List Char)) : String :=
  match cap with
  | some cs => String.mk (pyStrip cs)
  | none => ""

def extract1 (text : String) : String := extractSection (capture1 text.data)

def extract2 (text : String) : String := extractSection (capture2 text.data)

def extract3 (text : String) : String := extractSection (capture3 text.data)

def extract4 (text : String) : String := extractSection (capture4 text.data)

def extract5 (text : String) : String := extractSection (capture5 text.data)

/-- "the input contains section marker 1" = pattern 1 finds a match. -/
def hasMarker1 (text : String) : Bool := (capture1 text.data).isSome

def hasMarker2 (text : String) : Bool := (capture2 text.data).isSome

def hasMarker3 (text : String) : Bool := (capture3 text.data).isSome

def hasMarker4 (text : String) : Bool := (capture4 text.data).isSome

def hasMarker5 (text : String) : Bool := (capture5 text.data).isSome

/-- The fixed five-entry schema, in the dictionary's insertion order. -/
def sectionNames : List String :=
  ["Control Objective", "Risks Addressed", "Testing Procedures",
   "Test Results and Findings", "Conclusion and Recommendation"]

/-- `parse_analysis_sections` (word_generator.py, lines 14-57): apply the
five patterns, then, if every resulting value is empty, assign the whole
input to the first section.  The returned association list models the
Python dict, whose key order is the literal's insertion order. -/
def parse_analysis_sections (text : String) : List (String × String) :=
  if extract1 text = "" ∧ extract2 text = "" ∧ extract3 text = "" ∧
      extract4 text = "" ∧ extract5 text = "" then
    [("Control Objective", text), ("Risks Addressed", ""), ("Testing Procedures", ""),
     ("Test Results and Findings", ""), ("Conclusion and Recommendation", "")]
  else
    [("Control Objective", extract1 text), ("Risks Addressed", extract2 text),
     ("Testing Procedures", extract3 text), ("Test Results and Findings", extract4 text),
     ("Conclusion and Recommendation", extract5 text)]

/-! ## Document assembler (word_generator.py, lines 60-221) -/

/-- Python `\w` at ASCII granularity: letters, digits, underscore. -/
def isWordChar (c : Char) : Bool := c.isAlphanum || c = '_'

/-- The class kept by `re.sub(r'[^\w\s-]', '', ...)`. -/
def keepFilenameChar (c : Char) : Bool := isWordChar c || pyIsSpace c || c = '-'

/-- `.replace(' ', '_')`, character by character. -/
def spaceToUnd (c : Char) : Char := if c = ' ' then '_' else c

/-- `re.sub(r'[^\w\s-]', '', process_name).strip().replace(' ', '_')`
(word_generator.py, line 209). -/
def safe_process_name (name : String) : String :=
  String.mk ((pyStrip (name.data.filter keepFilenameChar)).map spaceToUnd)

/-- `f'Process_Analysis_{safe_process_name}_{timestamp}.docx'`
(word_generator.py, line 210); the timestamp argument stands for
`datetime.now().strftime('%Y%m%d_%H%M%S')`. -/
def create_report_filename (process_name : String) (timestamp : String) : String :=
  "Process_Analysis_" ++ safe_process_name process_name ++ "_" ++ timestamp ++ ".docx"

/-- The global names bound in the `word_generator` module: its imports and
its own function definitions.  Neither `parse_sox_sections` (line 83) nor
`control_heading` (line 113) is among them, and neither is a local
variable at its use site, so evaluating either name raises `NameError`. -/
def wordGeneratorGlobals : List String :=
  ["Document", "Pt", "RGBColor", "Inches", "WD_ALIGN_PARAGRAPH", "datetime", "os", "re",
   "logger", "OxmlElement", "qn", "parse_analysis_sections", "create_process_document",
   "list_generated_reports", "cleanup_old_reports", "create_sox_word_document"]

/-- `create_process_document` (word_generator.py, lines 60-221).  The
document-object side effects are irrelevant to the returned value; what
decides the outcome is Python name resolution at line 83 (and, were that
name defined, at line 113).  The `except` clause logs and re-raises, so a
`NameError` escapes to the caller; a completed run would return the bare
generated filename. -/
def create_process_document (analysis_text process_name timestamp : String) :
    Except String String :=
  if wordGeneratorGlobals.contains "parse_sox_sections" then
    if wordGeneratorGlobals.contains "control_heading" then
      Except.ok (create_report_filename process_name timestamp)
    else Except.error "NameError: name control_heading is not defined"
  else Except.error "NameError: name parse_sox_sections is not defined"

/-! ## Report store (word_generator.py, lines 224-290)

A directory is `Option (List FileEntry)`: `none` when `generated_reports`
does not exist, otherwise the entries in `os.listdir` order.  `mtimeMs` and
`ctimeMs` are epoch milliseconds; `removeFails` records whether
`os.remove` on this entry would raise. -/

structure FileEntry where
  name : String
  size : Nat
  ctimeMs : Nat
  mtimeMs : Nat
  removeFails : Bool
deriving DecidableEq

/-- One element of the list returned by `list_generated_reports`. -/
structure ReportInfo where
  filename : String
  size : Nat
  created : String
  modified : String
deriving DecidableEq

/-- `filename.endswith('.docx')`. -/
def endsDocx (s : String) : Bool :=
  s.data.drop (s.data.length - 5) == ".docx".data

/-- Zero-padded two-digit field of `strftime`. -/
def pad2 (n : Nat) : String := if n < 10 then "0" ++ toString n else toString n

/-- Civil date from days since 1970-01-01 (proleptic Gregorian). -/
def civilFromDays (z : Nat) : Nat × Nat × Nat :=
  let zs := z + 719468
  let era := zs / 146097
  let doe := zs % 146097
  let yoe := (doe - doe / 1460 + doe / 36524 - doe / 146097) / 365
  let y := yoe + era * 400
  let doy := doe - (365 * yoe + yoe / 4 - yoe / 100)
  let mp := (5 * doy + 2) / 153
  let d := doy - (153 * mp + 2) / 5 + 1
  let m := if mp < 10 then mp + 3 else mp - 9
  (if m ≤ 2 then y + 1 else y, m, d)

/-- `datetime.fromtimestamp(sec).strftime('%Y-%m-%d %H:%M:%S')`, modelled
in UTC on nonnegative epoch seconds. -/
def fmtDateTime (sec : Nat) : String :=
  let days := sec / 86400
  let rem := sec % 86400
  let ymd := civilFromDays days
  toString ymd.1 ++ "-" ++ pad2 ymd.2.1 ++ "-" ++ pad2 ymd.2.2 ++ " " ++
    pad2 (rem / 3600) ++ ":" ++ pad2 (rem % 3600 / 60) ++ ":" ++ pad2 (rem % 60)

/-- The dictionary built for one file (word_generator.py, lines 241-246). -/
def toInfo (f : FileEntry) : ReportInfo :=
  ⟨f.name, f.size, fmtDateTime (f.ctimeMs / 1000), fmtDateTime (f.mtimeMs / 1000)⟩

/-- Python string `<` : lexicographic comparison of code points. -/
def strLtB : List Char → List Char → Bool
  | _, [] => false
  | [], _ :: _ => true
  | a :: as, b :: bs => a.toNat < b.toNat || (a.toNat == b.toNat && strLtB as bs)

/-- The sort key comparison `x['modified'] < y['modified']`. -/
def modLtB (x y : ReportInfo) : Bool := strLtB x.modified.data y.modified.data

/-- One step of the stable descending sort: `x` is placed before the first
element strictly smaller than it, hence after every earlier element with an
equal key — exactly `list.sort(key=..., reverse=True)`, which keeps equal
elements in their original order. -/
def insertDesc (x : ReportInfo) : List ReportInfo → List ReportInfo
  | [] => [x]
  | y :: ys => if modLtB y x then x :: y :: ys else y :: insertDesc x ys

/-- `files.sort(key=lambda x: x['modified'], reverse=True)`. -/
def sortByModifiedDesc (l : List ReportInfo) : List ReportInfo :=
  l.foldl (fun acc x => insertDesc x acc) []

/-- `list_generated_reports` (word_generator.py, lines 224-254). -/
def list_generated_reports (dir : Option (List FileEntry)) : List ReportInfo :=
  match dir with
  | none => []
  | some files => sortByModifiedDesc ((files.filter (fun f => endsDocx f.name)).map toInfo)

/-- `current_time - (hours * 3600)` in milliseconds. -/
def cleanupCutoff (nowMs : Nat) (hours : Nat) : Int :=
  (nowMs : Int) - (hours : Int) * 3600000

/-- `filename.endswith('.docx') and os.path.getmtime(filepath) < cutoff_time`. -/
def dueForDeletion (cutoff : Int) (f : FileEntry) : Bool :=
  endsDocx f.name && ((f.mtimeMs : Int) < cutoff)

/-- The deletion loop of `cleanup_old_reports` (lines 276-284): returns
(an exception was raised, deletions counted so far, remaining entries).
A failing `os.remove` aborts the loop at once: the failing file and every
later file stay, files already removed stay removed. -/
def cleanupGo (cutoff : Int) : List FileEntry → Bool × Nat × List FileEntry
  | [] => (false, 0, [])
  | f :: fs =>
    if dueForDeletion cutoff f then
      if f.removeFails then (true, 0, f :: fs)
      else
        let r := cleanupGo cutoff fs
        (r.1, r.2.1 + 1, r.2.2)
    else
      let r := cleanupGo cutoff fs
      (r.1, r.2.1, f :: r.2.2)

/-- `cleanup_old_reports` (word_generator.py, lines 257-290): returns the
count handed to the caller (the `except` clause turns any exception into
`0`) together with the directory state afterwards. -/
def cleanup_old_reports (nowMs hours : Nat) (dir : Option (List FileEntry)) :
    Nat × Option (List FileEntry) :=
  match dir with
  | none => (0, none)
  | some files =>
    let r := cleanupGo (cleanupCutoff nowMs hours) files
    (if r.1 then 0 else r.2.1, some r.2.2)

/-! ## Concrete fixtures used by witnesses and counterexamples -/

/-- Two well-separated reports: one 2.5h old, one fresh, at `now` = 10000s. -/
def demoFiles : List FileEntry :=
  [⟨"old.docx", 10, 1000000, 1000000, false⟩, ⟨"new.docx", 10, 9999000, 9999000, false⟩]

/-- A due, removable report followed by a due report whose deletion fails. -/
def crashA : FileEntry := ⟨"a.docx", 1, 1000, 1000, false⟩

def crashB : FileEntry := ⟨"b.docx", 1, 2000, 2000, true⟩

def crashFiles : List FileEntry := [crashA, crashB]

/-- Modified at 10.5s — same formatted second as `ceFileB`. -/
def ceFileA : FileEntry := ⟨"a.docx", 1, 10500, 10500, false⟩

/-- Modified at 10.9s: strictly newer than `ceFileA`. -/
def ceFileB : FileEntry := ⟨"b.docx", 1, 10900, 10900, false⟩

/-- Directory-listing order puts the older file first. -/
def ceFiles : List FileEntry := [ceFileA, ceFileB]

/-- An old and a new report a full second apart, older first in the
directory listing. -/
def wFileOld : FileEntry := ⟨"old.docx", 3, 10000, 10000, false⟩

def wFileNew : FileEntry := ⟨"new.docx", 3, 20000, 20000, false⟩

def wFiles : List FileEntry := [wFileOld, wFileNew]

/-- "a is listed no later than b": a's sort key is not smaller than b's.
Descending order of the formatted modification timestamps. -/
def keyGe (a b : ReportInfo) : Prop :=
  strLtB a.modified.data b.modified.data = false

/-! ## Helper lemmas -/

theorem extract1_empty (t : String) (h : hasMarker1 t = false) : extract1 t = "" := by
  unfold hasMarker1 at h
  unfold extract1
  cases hc : capture1 t.data with
  | none => rfl
  | some v => rw [hc] at h; simp at h

theorem extract2_empty (t : String) (h : hasMarker2 t = false) : extract2 t = "" := by
  unfold hasMarker2 at h
  unfold extract2
  cases hc : capture2 t.data with
  | none => rfl
  | some v => rw [hc] at h; simp at h

theorem extract3_empty (t : String) (h : hasMarker3 t = false) : extract3 t = "" := by
  unfold hasMarker3 at h
  unfold extract3
  cases hc : capture3 t.data with
  | none => rfl
  | some v => rw [hc] at h; simp at h

theorem extract4_empty (t : String) (h : hasMarker4 t = false) : extract4 t = "" := by
  unfold hasMarker4 at h
  unfold extract4
  cases hc : capture4 t.data with
  | none => rfl
  | some v => rw [hc] at h; simp at h

theorem extract5_empty (t : String) (h : hasMarker5 t = false) : extract5 t = "" := by
  unfold hasMarker5 at h
  unfold extract5
  cases hc : capture5 t.data with
  | none => rfl
  | some v => rw [hc] at h; simp at h

theorem mem_pyStrip {a : Char} {l : List Char} (h : a ∈ pyStrip l) : a ∈ l := by
  unfold pyStrip at h
  rw [List.mem_reverse] at h
  have h2 : a ∈ (l.dropWhile pyIsSpace).reverse := (List.dropWhile_sublist pyIsSpace).subset h
  rw [List.mem_reverse] at h2
  exact (List.dropWhile_sublist pyIsSpace).subset h2

theorem safe_process_name_no_slash (name : String) :
    ∀ c ∈ (safe_process_name name).data, c ≠ '/' := by
  intro c hc
  unfold safe_process_name at hc
  rcases List.mem_map.mp hc with ⟨a, ha, rfl⟩
  have hkeep : keepFilenameChar a = true := List.of_mem_filter (mem_pyStrip ha)
  intro hEq
  by_cases hsp : a = ' '
  · rw [spaceToUnd, if_pos hsp] at hEq
    exact absurd hEq (by decide)
  · rw [spaceToUnd, if_neg hsp] at hEq
    subst hEq
    exact absurd hkeep (by decide)

/-! ## Claims about the parser -/

/-- C1.  Fallback law: if none of the five section markers occurs in the
input, `parse_analysis_sections` assigns the complete input text to the
first schema section and leaves the other four empty. -/
theorem parse_fallback_on_no_markers (text : String)
    (h1 : hasMarker1 text = false) (h2 : hasMarker2 text = false)
    (h3 : hasMarker3 text = false) (h4 : hasMarker4 text = false)
    (h5 : hasMarker5 text = false) :
    parse_analysis_sections text =
      [("Control Objective", text), ("Risks Addressed", ""), ("Testing Procedures", ""),
       ("Test Results and Findings", ""), ("Conclusion and Recommendation", "")] := by
  have e1 := extract1_empty text h1
  have e2 := extract2_empty text h2
  have e3 := extract3_empty text h3
  have e4 := extract4_empty text h4
  have e5 := extract5_empty text h5
  unfold parse_analysis_sections
  rw [if_pos ⟨e1, e2, e3, e4, e5⟩]

/-- Witness for C1 at a concrete marker-free input. -/
theorem parse_fallback_on_no_markers_witness :
    hasMarker1 "unstructured free text" = false ∧
    parse_analysis_sections "unstructured free text" =
      [("Control Objective", "unstructured free text"), ("Risks Addressed", ""),
       ("Testing Procedures", ""), ("Test Results and Findings", ""),
       ("Conclusion and Recommendation", "")] :=
  ⟨by decide, parse_fallback_on_no_markers "unstructured free text"
    (by decide) (by decide) (by decide) (by decide) (by decide)⟩

/-- C3 counterexample.  The input `"2. Risks Addressed:"` contains marker 2
and no other marker — a strict non-empty subset — yet the fallback *is*
triggered: the whole input is assigned to the unmatched first section,
which therefore is not left empty. -/
theorem parse_partial_match_counterexample :
    hasMarker2 "2. Risks Addressed:" = true ∧
    hasMarker1 "2. Risks Addressed:" = false ∧
    hasMarker3 "2. Risks Addressed:" = false ∧
    hasMarker4 "2. Risks Addressed:" = false ∧
    hasMarker5 "2. Risks Addressed:" = false ∧
    parse_analysis_sections "2. Risks Addressed:" =
      [("Control Objective", "2. Risks Addressed:"), ("Risks Addressed", ""),
       ("Testing Procedures", ""), ("Test Results and Findings", ""),
       ("Conclusion and Recommendation", "")] := by
  decide

/-- C3 (amended).  If at least one of the five rules extracts non-empty
trimmed content — in particular for any strict subset of markers whose
matched text is non-empty — no fallback occurs: every section holds exactly
its own extracted content, and a section whose marker is absent is the
empty string. -/
theorem parse_no_fallback_on_nonempty_extract (text : String)
    (h : ¬(extract1 text = "" ∧ extract2 text = "" ∧ extract3 text = "" ∧
           extract4 text = "" ∧ extract5 text = "")) :
    parse_analysis_sections text =
      [("Control Objective", extract1 text), ("Risks Addressed", extract2 text),
       ("Testing Procedures", extract3 text), ("Test Results and Findings", extract4 text),
       ("Conclusion and Recommendation", extract5 text)] ∧
    (hasMarker1 text = false → extract1 text = "") ∧
    (hasMarker2 text = false → extract2 text = "") ∧
    (hasMarker3 text = false → extract3 text = "") ∧
    (hasMarker4 text = false → extract4 text = "") ∧
    (hasMarker5 text = false → extract5 text = "") := by
  refine ⟨?_, extract1_empty text, extract2_empty text, extract3_empty text,
    extract4_empty text, extract5_empty text⟩
  unfold parse_analysis_sections
  rw [if_neg h]

/-- Witness for the amended C3 at an input containing only marker 2. -/
theorem parse_no_fallback_on_nonempty_extract_witness :
    ¬(extract1 "2. Risks Addressed: Unauthorized access risk." = "" ∧
      extract2 "2. Risks Addressed: Unauthorized access risk." = "" ∧
      extract3 "2. Risks Addressed: Unauthorized access risk." = "" ∧
      extract4 "2. Risks Addressed: Unauthorized access risk." = "" ∧
      extract5 "2. Risks Addressed: Unauthorized access risk." = "") ∧
    parse_analysis_sections "2. Risks Addressed: Unauthorized access risk." =
      [("Control Objective", ""), ("Risks Addressed", "Unauthorized access risk."),
       ("Testing Procedures", ""), ("Test Results and Findings", ""),
       ("Conclusion and Recommendation", "")] :=
  ⟨by decide,
    ((parse_no_fallback_on_nonempty_extract
      "2. Risks Addressed: Unauthorized access risk." (by decide)).1).trans (by decide)⟩

/-- C4.  On the fully marked concrete input, the parser returns exactly the
trimmed text between each marker and the next. -/
theorem parse_concrete_five_sections :
    parse_analysis_sections "1. Control Objective: Verify access.\n2. Risks Addressed: Unauthorized access.\n3. Testing Procedures: Sample 25 users.\n4. Test Results and Findings: 25/25 passed.\n5. Conclusion and Recommendation: Effective." =
      [("Control Objective", "Verify access."), ("Risks Addressed", "Unauthorized access."),
       ("Testing Procedures", "Sample 25 users."),
       ("Test Results and Findings", "25/25 passed."),
       ("Conclusion and Recommendation", "Effective.")] := by
  decide

/-- C5.  Schema-completeness invariant: for every input (including `""`)
the parser's result binds exactly the five section identifiers, in schema
order, each to some (possibly empty) string. -/
theorem parse_keys_are_schema (text : String) :
    (parse_analysis_sections text).map Prod.fst = sectionNames := by
  unfold parse_analysis_sections
  split <;> rfl

/-! ## Claims about the document generator -/

/-- C2.  Every call of `create_process_document` fails: line 83 evaluates
the undefined global `parse_sox_sections`, the resulting `NameError` is
re-raised by the `except` clause, and no filename is ever returned. -/
theorem create_process_document_always_fails (analysis_text process_name timestamp : String) :
    create_process_document analysis_text process_name timestamp =
      Except.error "NameError: name parse_sox_sections is not defined" := rfl

/-- C6.  The generated filename is the fixed prefix, the sanitized slug of
the subject name, the timestamp and the `.docx` extension; it contains no
`/` (given that the `%Y%m%d_%H%M%S` timestamp has none), and the subject
name `"Q3 Audit / Review"` slugifies to `"Q3_Audit__Review"` — the `/` is
stripped and each of the surrounding spaces becomes `_`. -/
theorem report_filename_safe (name ts : String)
    (hts : ∀ c ∈ ts.data, c ≠ '/') :
    create_report_filename name ts =
      "Process_Analysis_" ++ safe_process_name name ++ "_" ++ ts ++ ".docx" ∧
    (∀ c ∈ (create_report_filename name ts).data, c ≠ '/') ∧
    safe_process_name "Q3 Audit / Review" = "Q3_Audit__Review" := by
  refine ⟨rfl, ?_, by decide⟩
  intro c hc
  have hdata : (create_report_filename name ts).data =
      ((("Process_Analysis_".data ++ (safe_process_name name).data) ++ "_".data) ++ ts.data)
        ++ ".docx".data := rfl
  rw [hdata] at hc
  simp only [List.mem_append] at hc
  rcases hc with ((((hc | hc) | hc) | hc) | hc)
  · exact (by decide : ∀ x ∈ "Process_Analysis_".data, x ≠ '/') c hc
  · exact safe_process_name_no_slash name c hc
  · exact (by decide : ∀ x ∈ "_".data, x ≠ '/') c hc
  · exact hts c hc
  · exact (by decide : ∀ x ∈ ".docx".data, x ≠ '/') c hc

/-- Witness for C6 at the concrete subject name of the specification. -/
theorem report_filename_safe_witness :
    (∀ c ∈ "20251012_120000".data, c ≠ '/') ∧
    create_report_filename "Q3 Audit / Review" "20251012_120000" =
      "Process_Analysis_Q3_Audit__Review_20251012_120000.docx" :=
  ⟨by decide,
    ((report_filename_safe "Q3 Audit / Review" "20251012_120000" (by decide)).1).trans
      (by decide)⟩

/-! ## Claims about the report store -/

/-- C9.  When the `generated_reports` directory does not exist, listing
returns the empty sequence (the guard at lines 232-234 returns before any
fallible file-system call, so no exception can arise). -/
theorem list_reports_missing_dir : list_generated_reports none = [] := rfl

theorem strLtB_irrefl (l : List Char) : strLtB l l = false := by
  induction l with
  | nil => rfl
  | cons a as ih => simp [strLtB, ih]

theorem strLtB_asymm {a b : List Char} (h : strLtB a b = true) : strLtB b a = false := by
  induction a generalizing b with
  | nil =>
    cases b with
    | nil => simp [strLtB] at h
    | cons y ys => rfl
  | cons x xs ih =>
    cases b with
    | nil => simp [strLtB] at h
    | cons y ys =>
      unfold strLtB at h ⊢
      simp only [Bool.or_eq_true, Bool.and_eq_true, decide_eq_true_eq, beq_iff_eq] at h
      simp only [Bool.or_eq_false_iff, decide_eq_false_iff_not, Bool.and_eq_false_iff,
        beq_eq_false_iff_ne]
      rcases h with h | ⟨he, hs⟩
      · exact ⟨by omega, Or.inl (by omega)⟩
      · exact ⟨by omega, Or.inr (ih hs)⟩

theorem strLtB_le_lt {a b c : List Char} (hab : strLtB a b = false)
    (hac : strLtB a c = true) : strLtB b c = true := by
  induction a generalizing b c with
  | nil =>
    cases b with
    | nil => exact hac
    | cons y ys => simp [strLtB] at hab
  | cons x xs ih =>
    cases c with
    | nil => simp [strLtB] at hac
    | cons z zs =>
      cases b with
      | nil => rfl
      | cons y ys =>
        unfold strLtB at hab hac ⊢
        simp only [Bool.or_eq_false_iff, decide_eq_false_iff_not, Bool.and_eq_false_iff,
          beq_eq_false_iff_ne] at hab
        simp only [Bool.or_eq_true, Bool.and_eq_true, decide_eq_true_eq, beq_iff_eq] at hac ⊢
        rcases hab with ⟨hnlt, hrest⟩
        rcases hac with hlt | ⟨heq, hs⟩
        · exact Or.inl (by omega)
        · rcases hrest with hne | hfalse
          · exact Or.inl (by omega)
          · rcases Nat.lt_or_ge y.toNat x.toNat with hylt | hyge
            · exact Or.inl (by omega)
            · exact Or.inr ⟨by omega, ih hfalse hs⟩

theorem mem_insertDesc {w x : ReportInfo} {l : List ReportInfo}
    (h : w ∈ insertDesc x l) : w = x ∨ w ∈ l := by
  induction l with
  | nil => simpa [insertDesc] using h
  | cons y ys ih =>
    by_cases hk : modLtB y x = true
    · simp only [insertDesc, if_pos hk] at h
      rcases List.mem_cons.mp h with h | h
      · exact Or.inl h
      · exact Or.inr h
    · simp only [insertDesc, if_neg hk] at h
      rcases List.mem_cons.mp h with h | h
      · exact Or.inr (by simp [h])
      · rcases ih h with h | h
        · exact Or.inl h
        · exact Or.inr (List.mem_cons_of_mem _ h)

theorem pairwise_insertDesc {x : ReportInfo} {l : List ReportInfo}
    (h : List.Pairwise keyGe l) : List.Pairwise keyGe (insertDesc x l) := by
  induction l with
  | nil => simp [insertDesc]
  | cons y ys ih =>
    rcases List.pairwise_cons.mp h with ⟨hy, hys⟩
    by_cases hk : modLtB y x = true
    · simp only [insertDesc, if_pos hk]
      refine List.pairwise_cons.mpr ⟨?_, h⟩
      intro w hw
      rcases List.mem_cons.mp hw with rfl | hw
      · exact strLtB_asymm hk
      · exact strLtB_asymm (strLtB_le_lt (hy w hw) hk)
    · simp only [insertDesc, if_neg hk]
      refine List.pairwise_cons.mpr ⟨?_, ih hys⟩
      intro w hw
      rcases mem_insertDesc hw with rfl | hw
      · exact Bool.eq_false_iff.mpr hk
      · exact hy w hw

theorem pairwise_foldl_insertDesc (l : List ReportInfo) :
    ∀ acc : List ReportInfo, List.Pairwise keyGe acc →
      List.Pairwise keyGe (l.foldl (fun a x => insertDesc x a) acc) := by
  induction l with
  | nil => intro acc h; simpa using h
  | cons x xs ih => intro acc h; exact ih _ (pairwise_insertDesc h)

theorem pairwise_sortByModifiedDesc (l : List ReportInfo) :
    List.Pairwise keyGe (sortByModifiedDesc l) :=
  pairwise_foldl_insertDesc l [] List.Pairwise.nil

theorem cleanupGo_no_fail (cutoff : Int) (files : List FileEntry)
    (hok : ∀ f ∈ files, f.removeFails = false) :
    cleanupGo cutoff files =
      (false, (files.filter (dueForDeletion cutoff)).length,
       files.filter (fun f => ! dueForDeletion cutoff f)) := by
  induction files with
  | nil => rfl
  | cons f fs ih =>
    have hf : f.removeFails = false := hok f (List.mem_cons_self f fs)
    have hfs : ∀ g ∈ fs, g.removeFails = false :=
      fun g hg => hok g (List.mem_cons_of_mem f hg)
    by_cases hd : dueForDeletion cutoff f = true
    · simp [cleanupGo, hd, hf, ih hfs, List.filter_cons]
    · simp [cleanupGo, hd, hf, ih hfs, List.filter_cons]

theorem cleanupGo_fail (cutoff : Int) (files : List FileEntry)
    (h : ∃ f ∈ files, dueForDeletion cutoff f = true ∧ f.removeFails = true) :
    (cleanupGo cutoff files).1 = true := by
  induction files with
  | nil => simp at h
  | cons f fs ih =>
    rcases h with ⟨g, hg, hdue, hfail⟩
    rcases List.mem_cons.mp hg with rfl | hg
    · simp [cleanupGo, hdue, hfail]
    · by_cases hd : dueForDeletion cutoff f = true
      · by_cases hr : f.removeFails = true
        · simp [cleanupGo, hd, hr]
        · have hrec := ih ⟨g, hg, hdue, hfail⟩
          simp [cleanupGo, hd, hr, hrec]
      · have hrec := ih ⟨g, hg, hdue, hfail⟩
        simp [cleanupGo, hd, hrec]

/-- C7.  Cutoff-boundary law (with every deletion succeeding): cleanup
deletes exactly the `.docx` entries whose modification time is strictly
older than `now - hours*3600` and returns their count; when every file is
at most `hours` old the count is zero (so a cleanup with `hours > 0` run
immediately after a generation deletes nothing), and `cleanup(0)` deletes
every `.docx` file whose modification time is strictly before `now` — in
particular a file created just before the call. -/
theorem cleanup_cutoff_law (nowMs hours : Nat) (files : List FileEntry)
    (hok : ∀ f ∈ files, f.removeFails = false) :
    (cleanup_old_reports nowMs hours (some files)).1 =
      (files.filter (dueForDeletion (cleanupCutoff nowMs hours))).length ∧
    (cleanup_old_reports nowMs hours (some files)).2 =
      some (files.filter (fun f => ! dueForDeletion (cleanupCutoff nowMs hours) f)) ∧
    ((∀ f ∈ files, cleanupCutoff nowMs hours ≤ (f.mtimeMs : Int)) →
      (cleanup_old_reports nowMs hours (some files)).1 = 0) ∧
    (hours = 0 → ∀ f ∈ files, endsDocx f.name = true → (f.mtimeMs : Int) < (nowMs : Int) →
      f ∉ ((cleanup_old_reports nowMs hours (some files)).2.getD []) ∧
      (cleanup_old_reports nowMs hours (some files)).1 ≠ 0) := by
  have hgo := cleanupGo_no_fail (cleanupCutoff nowMs hours) files hok
  have h1 : (cleanup_old_reports nowMs hours (some files)).1 =
      (files.filter (dueForDeletion (cleanupCutoff nowMs hours))).length := by
    simp [cleanup_old_reports, hgo]
  have h2 : (cleanup_old_reports nowMs hours (some files)).2 =
      some (files.filter (fun f => ! dueForDeletion (cleanupCutoff nowMs hours) f)) := by
    simp [cleanup_old_reports, hgo]
  refine ⟨h1, h2, ?_, ?_⟩
  · intro hfresh
    rw [h1]
    have hnil : files.filter (dueForDeletion (cleanupCutoff nowMs hours)) = [] := by
      apply List.filter_eq_nil_iff.mpr
      intro f hf
      have hle := hfresh f hf
      simp only [dueForDeletion, Bool.and_eq_true, decide_eq_true_eq, not_and]
      intro _
      exact not_lt.mpr hle
    rw [hnil]
    rfl
  · intro h0 f hf hdocx hmt
    subst h0
    have hdue : dueForDeletion (cleanupCutoff nowMs 0) f = true := by
      simp only [dueForDeletion, hdocx, Bool.true_and, decide_eq_true_eq, cleanupCutoff]
      omega
    constructor
    · intro hmem
      rw [h2] at hmem
      simp only [Option.getD_some] at hmem
      have hkeep := List.of_mem_filter hmem
      rw [hdue] at hkeep
      exact absurd hkeep (by decide)
    · rw [h1]
      intro hlen
      have hfmem : f ∈ files.filter (dueForDeletion (cleanupCutoff nowMs 0)) :=
        List.mem_filter.mpr ⟨hf, hdue⟩
      rw [List.length_eq_zero.mp hlen] at hfmem
      exact absurd hfmem (List.not_mem_nil f)

/-- Witness for C7: at `now` = 10000s with a 2.5-hour-old report and a
fresh report, `cleanup(1)` reports exactly the one expired `.docx` file. -/
theorem cleanup_cutoff_law_witness :
    (cleanup_old_reports 10000000 1 (some demoFiles)).1 =
      (demoFiles.filter (dueForDeletion (cleanupCutoff 10000000 1))).length ∧
    (cleanup_old_reports 10000000 1 (some demoFiles)).1 = 1 :=
  ⟨(cleanup_cutoff_law 10000000 1 demoFiles (by decide)).1, by decide⟩

/-- C8 counterexample.  `ceFileB` is strictly newer than `ceFileA` (10.9s
vs 10.5s), but both format to the same second, so the second-resolution
sort key ties and the stable sort keeps the directory order: the listing
puts the older `a.docx` before the newer `b.docx`.  The listing is
therefore not sorted by modification time descending, and a newly
generated file does not necessarily appear before every older file. -/
theorem list_order_counterexample :
    ceFileA.mtimeMs < ceFileB.mtimeMs ∧
    (list_generated_reports (some ceFiles)).map ReportInfo.filename =
      ["a.docx", "b.docx"] := by
  decide

/-- C8 (amended).  The listing is sorted in descending lexicographic order
of the formatted second-resolution modification timestamps (ties keep
directory order); consequently any descriptor whose formatted timestamp is
strictly greater than another's — in particular a fresh file at least one
second newer than every other — appears strictly earlier in the listing. -/
theorem list_reports_sorted_desc (files : List FileEntry) :
    List.Pairwise keyGe (list_generated_reports (some files)) ∧
    (∀ (i j : Nat) (x y : ReportInfo),
      (list_generated_reports (some files)).get? i = some x →
      (list_generated_reports (some files)).get? j = some y →
      strLtB y.modified.data x.modified.data = true → i < j) := by
  have hp : List.Pairwise keyGe (list_generated_reports (some files)) :=
    pairwise_sortByModifiedDesc _
  refine ⟨hp, ?_⟩
  intro i j x y hi hj hlt
  by_contra hij
  push_neg at hij
  rcases Nat.lt_or_ge j i with hji | hle
  · rcases List.get?_eq_some.mp hi with ⟨hilen, hig⟩
    rcases List.get?_eq_some.mp hj with ⟨hjlen, hjg⟩
    have hr := List.pairwise_iff_get.mp hp ⟨j, hjlen⟩ ⟨i, hilen⟩ hji
    rw [hig, hjg] at hr
    rw [hr] at hlt
    exact absurd hlt (by decide)
  · have heq : i = j := Nat.le_antisymm hle hij
    subst heq
    rw [hi] at hj
    have hxy : x = y := by injection hj
    subst hxy
    rw [strLtB_irrefl] at hlt
    exact absurd hlt (by decide)

/-- Witness for the amended C8: with an old and a new report a full second
apart (older first in the directory), the new one is listed at index 0 and
the old one at index 1, and the positional law yields `0 < 1`. -/
theorem list_reports_sorted_desc_witness :
    List.Pairwise keyGe (list_generated_reports (some wFiles)) ∧ (0 : Nat) < 1 :=
  ⟨(list_reports_sorted_desc wFiles).1,
    (list_reports_sorted_desc wFiles).2 0 1
      ⟨"new.docx", 3, "1970-01-01 00:00:20", "1970-01-01 00:00:20"⟩
      ⟨"old.docx", 3, "1970-01-01 00:00:10", "1970-01-01 00:00:10"⟩
      (by decide) (by decide) (by decide)⟩

/-- C10.  Error swallowing and non-atomicity of cleanup: whenever some due
file's deletion raises, the function returns 0 (the `except` clause maps
every exception to 0), yet the due files processed before the failure stay
deleted — concretely, with `crashA` due and removable and `crashB` due but
failing, cleanup returns 0 while the directory afterwards holds only
`crashB`: the returned 0 does not imply that nothing was removed. -/
theorem cleanup_error_swallowing :
    (∀ (nowMs hours : Nat) (files : List FileEntry),
      (∃ f ∈ files, dueForDeletion (cleanupCutoff nowMs hours) f = true ∧
        f.removeFails = true) →
      (cleanup_old_reports nowMs hours (some files)).1 = 0) ∧
    (cleanup_old_reports 10000000 0 (some crashFiles)).1 = 0 ∧
    (cleanup_old_reports 10000000 0 (some crashFiles)).2 = some [crashB] ∧
    crashA ∈ crashFiles ∧ crashA ∉ [crashB] := by
  refine ⟨?_, by decide, by decide, by decide, by decide⟩
  intro nowMs hours files hex
  have hfail := cleanupGo_fail (cleanupCutoff nowMs hours) files hex
  simp [cleanup_old_reports, hfail]

/-- Witness for C10 at the concrete failing directory. -/
theorem cleanup_error_swallowing_witness :
    (cleanup_old_reports 20000000 0 (some crashFiles)).1 = 0 :=
  cleanup_error_swallowing.1 20000000 0 crashFiles (by decide)
